import Mathlib

/-
Verification of the dog-walker tracking core (tracker.py, main.py).

Shallow embedding conventions:
* timestamps are integers (seconds); every Python `datetime.utcnow()` call
  inside a single tracker call is modelled by one `now : Int` parameter;
* floating confidences / quality scores are rationals;
* the SQLAlchemy tables are lists kept in insertion order (`.first()` on an
  unordered query returns the first row in insertion order);
* file-system state is the list of existing file paths.
-/

namespace DogWalker

/-- One entry of `WalkerTracker.recent_detections` (tracker.py lines 72-77). -/
structure RecentDetection where
  walker_id : Nat
  camera : String
  timestamp : Int
  has_dog : Bool
deriving DecidableEq

/-- Row of the `walkers` table (database.py `Walker`). -/
structure Walker where
  id : Nat
  first_seen : Int
  last_seen : Int
  total_walks : Nat
deriving DecidableEq

/-- Row of the `detections` table (database.py `Detection`). -/
structure Detection where
  walker_id : Nat
  camera : String
  zone : String
  path_name : String
  timestamp : Int
  event_type : String
  has_dog : Bool
  person_confidence : Rat
  dog_confidence : Option Rat
deriving DecidableEq

/-- Row of the `walk_sessions` table (database.py `WalkSession`); the
comma-separated camera/path strings are modelled as duplicate-free lists. -/
structure WalkSession where
  walker_id : Nat
  start_time : Int
  end_time : Option Int
  cameras_visited : List String
  paths_taken : List String
  has_dog : Bool
deriving DecidableEq

/-- Row of the `walker_images` table (database.py `WalkerImage`). -/
structure WalkerImage where
  id : Nat
  walker_id : Nat
  image_path : String
  image_type : String
  timestamp : Int
  camera : String
  quality_score : Rat
deriving DecidableEq

/-- The configuration values the tracker core reads
(`config['tracking']['cross_camera_window']`,
 `config['images']['max_images_per_walker']`). -/
structure Config where
  cross_camera_window : Int
  max_images_per_walker : Nat
deriving DecidableEq

/-- Whole mutable state of a `WalkerTracker` together with its database
session and the image files on disk.  `next_walker_id` / `next_image_id`
model the autoincrementing primary keys. -/
structure TrackerState where
  walkers : List Walker
  detections : List Detection
  sessions : List WalkSession
  images : List WalkerImage
  recent_detections : List RecentDetection
  files : List String
  next_walker_id : Nat
  next_image_id : Nat
deriving DecidableEq

/-- A freshly constructed tracker over an empty database. -/
def emptyState : TrackerState :=
  { walkers := [], detections := [], sessions := [], images := [],
    recent_detections := [], files := [], next_walker_id := 0, next_image_id := 0 }

/-- The loop body of `WalkerTracker._match_to_walker` (tracker.py lines
111-128), running over the reversed (newest-first) recent-detection list.
`cutoff` is `utcnow() - timedelta(seconds=window)`. -/
def matchScan (camera : String) (has_dog : Bool) (now cutoff : Int) :
    List RecentDetection → Option Nat
  | [] => none
  | d :: rest =>
    if d.timestamp < cutoff then matchScan camera has_dog now cutoff rest
    else if d.has_dog = has_dog then
      if d.camera ≠ camera then some d.walker_id
      else if 60 < now - d.timestamp then some d.walker_id
      else matchScan camera has_dog now cutoff rest
    else matchScan camera has_dog now cutoff rest

/-- `WalkerTracker._match_to_walker` (tracker.py lines 102-129).  The `zone`
argument is accepted and ignored, as in the source. -/
def matchToWalker (cfg : Config) (recents : List RecentDetection)
    (camera : String) (zone : String) (has_dog : Bool) (now : Int) : Option Nat :=
  matchScan camera has_dog now (now - cfg.cross_camera_window) recents.reverse

/-- `WalkerTracker._clean_recent_detections` (tracker.py lines 131-138):
keep entries with `timestamp >= utcnow() - window`. -/
def cleanRecentDetections (cfg : Config) (now : Int)
    (recents : List RecentDetection) : List RecentDetection :=
  recents.filter fun d => decide (now - cfg.cross_camera_window ≤ d.timestamp)

/-- Adding one element to a set represented as a duplicate-free list
(the `set(...).add(x)` idiom in `_update_walk_session`). -/
def insertSet (x : String) (l : List String) : List String :=
  if x ∈ l then l else l ++ [x]

/-- `WalkerTracker._update_walk_session` (tracker.py lines 140-170): update
the first session row with this walker id and a null end time, or append a
fresh open session when none exists. -/
def updateWalkSession (walker_id : Nat) (camera path_name : String)
    (has_dog : Bool) (now : Int) : List WalkSession → List WalkSession
  | [] => [{ walker_id := walker_id, start_time := now, end_time := none,
             cameras_visited := [camera], paths_taken := [path_name],
             has_dog := has_dog }]
  | s :: rest =>
    if s.walker_id = walker_id ∧ s.end_time = none then
      { s with cameras_visited := insertSet camera s.cameras_visited,
               paths_taken := insertSet path_name s.paths_taken,
               has_dog := s.has_dog || has_dog } :: rest
    else s :: updateWalkSession walker_id camera path_name has_dog now rest

/-- `WalkerTracker.close_session` (tracker.py lines 172-182): set the end
time of the first open session of this walker, if any. -/
def closeSession (walker_id : Nat) (now : Int) : List WalkSession → List WalkSession
  | [] => []
  | s :: rest =>
    if s.walker_id = walker_id ∧ s.end_time = none then
      { s with end_time := some now } :: rest
    else s :: closeSession walker_id now rest

/-- `WalkerTracker.process_detection` (tracker.py lines 23-85). -/
def process_detection (cfg : Config) (st : TrackerState)
    (camera zone path_name : String) (has_person has_dog : Bool)
    (person_confidence dog_confidence : Rat) (now : Int) :
    Option Nat × TrackerState :=
  if has_person then
    let matched := matchToWalker cfg st.recent_detections camera zone has_dog now
    let walker_id := match matched with
      | none => st.next_walker_id
      | some wid => wid
    let walkers1 := match matched with
      | none => st.walkers ++ [{ id := st.next_walker_id, first_seen := now,
                                 last_seen := now, total_walks := 1 }]
      | some wid => st.walkers.map fun w =>
          if w.id = wid then { w with last_seen := now } else w
    let next1 := match matched with
      | none => st.next_walker_id + 1
      | some _ => st.next_walker_id
    let detection : Detection :=
      { walker_id := walker_id, camera := camera, zone := zone,
        path_name := path_name, timestamp := now, event_type := "enter",
        has_dog := has_dog, person_confidence := person_confidence,
        dog_confidence := if has_dog then some dog_confidence else none }
    let entry : RecentDetection :=
      { walker_id := walker_id, camera := camera, timestamp := now,
        has_dog := has_dog }
    (some walker_id,
     { st with walkers := walkers1, next_walker_id := next1,
               detections := st.detections ++ [detection],
               recent_detections :=
                 cleanRecentDetections cfg now (st.recent_detections ++ [entry]),
               sessions := updateWalkSession walker_id camera path_name has_dog now
                 st.sessions })
  else (none, st)

/-- Ranking used by `_cleanup_old_images`:
`order_by(quality_score.desc(), timestamp.desc())`. -/
def imageRank (a b : WalkerImage) : Prop :=
  b.quality_score < a.quality_score ∨
    (a.quality_score = b.quality_score ∧ b.timestamp ≤ a.timestamp)

instance : DecidableRel imageRank := fun a b => by
  unfold imageRank; infer_instance

instance : IsTotal WalkerImage imageRank where
  total a b := by
    unfold imageRank
    rcases lt_trichotomy a.quality_score b.quality_score with h | h | h
    · exact Or.inr (Or.inl h)
    · rcases le_total b.timestamp a.timestamp with ht | ht
      · exact Or.inl (Or.inr ⟨h, ht⟩)
      · exact Or.inr (Or.inr ⟨h.symm, ht⟩)
    · exact Or.inl (Or.inl h)

instance : IsTrans WalkerImage imageRank where
  trans a b c hab hbc := by
    unfold imageRank at hab hbc ⊢
    rcases hab with h1 | ⟨h1, h1t⟩
    · rcases hbc with h2 | ⟨h2, _⟩
      · exact Or.inl (h2.trans h1)
      · exact Or.inl (h2 ▸ h1)
    · rcases hbc with h2 | ⟨h2, h2t⟩
      · exact Or.inl (h1 ▸ h2)
      · exact Or.inr ⟨h1.trans h2, h1t.trans' h2t⟩

/-- This walker's image rows. -/
def walkerImages (walker_id : Nat) (images : List WalkerImage) : List WalkerImage :=
  images.filter fun i => decide (i.walker_id = walker_id)

/-- The rows returned by the `_cleanup_old_images` query: this walker's
images, sorted by quality descending then timestamp descending. -/
def rankedImages (walker_id : Nat) (images : List WalkerImage) : List WalkerImage :=
  List.insertionSort imageRank (walkerImages walker_id images)

/-- `WalkerTracker._cleanup_old_images` (tracker.py lines 202-214): when the
walker has more than `max_images` rows, delete every row past the cutoff
(by primary key) and remove its file from disk. -/
def cleanupOldImages (walker_id : Nat) (max_images : Nat)
    (st : TrackerState) : TrackerState :=
  let images := rankedImages walker_id st.images
  if max_images < images.length then
    let doomed := images.drop max_images
    { st with
      images := st.images.filter fun i => decide (∀ e ∈ doomed, e.id ≠ i.id),
      files := st.files.filter fun p => decide (∀ e ∈ doomed, e.image_path ≠ p) }
  else st

/-- `WalkerTracker.save_walker_image` (tracker.py lines 184-200). -/
def save_walker_image (cfg : Config) (st : TrackerState) (walker_id : Nat)
    (image_path image_type camera : String) (quality_score : Rat)
    (now : Int) : TrackerState :=
  let img : WalkerImage :=
    { id := st.next_image_id, walker_id := walker_id, image_path := image_path,
      image_type := image_type, timestamp := now, camera := camera,
      quality_score := quality_score }
  cleanupOldImages walker_id cfg.max_images_per_walker
    { st with images := st.images ++ [img],
              next_image_id := st.next_image_id + 1 }

/-- Per-camera settings from `config['cameras'][camera]` (main.py). -/
structure CameraConfig where
  zone : String
  path_name : String
deriving DecidableEq

/-- The application configuration the ingestion adapter reads. -/
structure AppConfig where
  cameras : List (String × CameraConfig)
  min_person_confidence : Rat
deriving DecidableEq

/-- The argument tuple `DogWalkerTrackerApp._process_detection` passes to
`tracker.process_detection`. -/
structure DetectionCall where
  camera : String
  zone : String
  path_name : String
  has_person : Bool
  has_dog : Bool
  person_confidence : Rat
deriving DecidableEq

/-- `self.config['cameras'].get(camera)`. -/
def lookupCamera (camera : String) :
    List (String × CameraConfig) → Option CameraConfig
  | [] => none
  | (name, cc) :: rest =>
    if name = camera then some cc else lookupCamera camera rest

/-- `DogWalkerTrackerApp._process_detection` (main.py lines 124-157),
returning the call it makes into the matcher, or `none` when the event is
dropped.  The MQTT payload is an integer detection count when
well-formed (`count = payload if isinstance(payload, int) else 0`). -/
def app_process_detection (cfg : AppConfig) (camera object_type : String)
    (payload : Option Int) : Option DetectionCall :=
  match lookupCamera camera cfg.cameras with
  | none => none
  | some cc =>
    let count : Int := match payload with
      | some n => n
      | none => 0
    if object_type = "person" ∧ 0 < count then
      some { camera := camera, zone := cc.zone, path_name := cc.path_name,
             has_person := true, has_dog := false,
             person_confidence := cfg.min_person_confidence }
    else none

/-- The operations the surrounding application performs on one tracker:
`process_detection` calls and `close_session` calls. -/
inductive TrackerOp where
  | detect (camera zone path_name : String) (has_person has_dog : Bool)
      (person_confidence dog_confidence : Rat) (now : Int)
  | close (walker_id : Nat) (now : Int)
deriving DecidableEq

/-- Apply one operation to the tracker state. -/
def applyOp (cfg : Config) (st : TrackerState) : TrackerOp → TrackerState
  | .detect camera zone path_name has_person has_dog pc dc now =>
    (process_detection cfg st camera zone path_name has_person has_dog pc dc now).2
  | .close walker_id now =>
    { st with sessions := closeSession walker_id now st.sessions }

/-- Apply a sequence of operations in order. -/
def runOps (cfg : Config) (st : TrackerState) : List TrackerOp → TrackerState
  | [] => st
  | op :: ops => runOps cfg (applyOp cfg st op) ops

/-- The session rows the open-session queries look for:
`walker_id == w` and `end_time IS NULL`. -/
def isOpenFor (w : Nat) (s : WalkSession) : Prop :=
  s.walker_id = w ∧ s.end_time = none

instance (w : Nat) (s : WalkSession) : Decidable (isOpenFor w s) := by
  unfold isOpenFor; infer_instance

/-- Number of open sessions stored for walker `w`. -/
def openCount (w : Nat) (sessions : List WalkSession) : Nat :=
  sessions.countP fun s => decide (isOpenFor w s)

end DogWalker

namespace DogWalker

/-! ### Helper lemmas -/

theorem mem_cleanRecentDetections (cfg : Config) (now : Int)
    (l : List RecentDetection) (d : RecentDetection) :
    d ∈ cleanRecentDetections cfg now l ↔
      d ∈ l ∧ now - cfg.cross_camera_window ≤ d.timestamp := by
  simp [cleanRecentDetections]

theorem cleanRecent_append_last (cfg : Config) (now : Int)
    (l : List RecentDetection) (e : RecentDetection)
    (he : now - cfg.cross_camera_window ≤ e.timestamp) :
    cleanRecentDetections cfg now (l ++ [e])
      = cleanRecentDetections cfg now l ++ [e] := by
  simp [cleanRecentDetections, List.filter_append, he]
  omega

theorem process_not_person (cfg : Config) (st : TrackerState)
    (camera zone path_name : String) (has_dog : Bool) (pc dc : Rat) (now : Int) :
    process_detection cfg st camera zone path_name false has_dog pc dc now
      = (none, st) := by
  simp [process_detection]

theorem processSpec (cfg : Config) (st : TrackerState)
    (camera zone path_name : String) (has_dog : Bool) (pc dc : Rat) (now : Int) :
    ∃ w : Nat,
      (process_detection cfg st camera zone path_name true has_dog pc dc now).1
        = some w ∧
      (process_detection cfg st camera zone path_name true has_dog pc dc now).2.recent_detections
        = cleanRecentDetections cfg now
            (st.recent_detections ++ [⟨w, camera, now, has_dog⟩]) ∧
      (process_detection cfg st camera zone path_name true has_dog pc dc now).2.sessions
        = updateWalkSession w camera path_name has_dog now st.sessions ∧
      ((matchToWalker cfg st.recent_detections camera zone has_dog now = some w ∧
        (process_detection cfg st camera zone path_name true has_dog pc dc now).2.walkers.length
          = st.walkers.length) ∨
       (matchToWalker cfg st.recent_detections camera zone has_dog now = none ∧
        w = st.next_walker_id ∧
        (process_detection cfg st camera zone path_name true has_dog pc dc now).2.walkers.length
          = st.walkers.length + 1)) := by
  cases h : matchToWalker cfg st.recent_detections camera zone has_dog now with
  | none =>
    refine ⟨st.next_walker_id, ?_, ?_, ?_, Or.inr ⟨rfl, rfl, ?_⟩⟩ <;>
      simp [process_detection, h]
  | some wid =>
    refine ⟨wid, ?_, ?_, ?_, Or.inl ⟨rfl, ?_⟩⟩ <;>
      simp [process_detection, h]

theorem matchScan_none_of_stale (camera : String) (has_dog : Bool)
    (now cutoff : Int) (l : List RecentDetection)
    (h : ∀ d ∈ l, d.timestamp < cutoff) :
    matchScan camera has_dog now cutoff l = none := by
  induction l with
  | nil => rfl
  | cons d rest ih =>
    have hd := h d (List.mem_cons_self d rest)
    simp only [matchScan, if_pos hd]
    exact ih fun x hx => h x (List.mem_cons_of_mem d hx)

theorem matchScan_mem_flag (camera : String) (has_dog : Bool)
    (now cutoff : Int) (l : List RecentDetection) (wid : Nat)
    (h : matchScan camera has_dog now cutoff l = some wid) :
    ∃ e ∈ l, e.walker_id = wid ∧ e.has_dog = has_dog := by
  induction l with
  | nil => simp [matchScan] at h
  | cons d rest ih =>
    simp only [matchScan] at h
    split_ifs at h with h1 h2 h3 h4
    · obtain ⟨e, he, hp⟩ := ih h
      exact ⟨e, List.mem_cons_of_mem d he, hp⟩
    · exact ⟨d, List.mem_cons_self d rest, Option.some.inj h ▸ rfl, h2⟩
    · exact ⟨d, List.mem_cons_self d rest, Option.some.inj h ▸ rfl, h2⟩
    · obtain ⟨e, he, hp⟩ := ih h
      exact ⟨e, List.mem_cons_of_mem d he, hp⟩
    · obtain ⟨e, he, hp⟩ := ih h
      exact ⟨e, List.mem_cons_of_mem d he, hp⟩

/-! ### Session bookkeeping lemmas -/

theorem openCount_nil (w : Nat) : openCount w [] = 0 := rfl

theorem openCount_updateWalkSession (w wid : Nat) (cam path : String)
    (dog : Bool) (now : Int) (ss : List WalkSession) :
    openCount w (updateWalkSession wid cam path dog now ss)
      = if ∃ s ∈ ss, isOpenFor wid s then openCount w ss
        else openCount w ss + if w = wid then 1 else 0 := by
  induction ss with
  | nil =>
    simp only [updateWalkSession, openCount, List.countP_cons, List.countP_nil]
    simp [isOpenFor, eq_comm]
  | cons s rest ih =>
    by_cases hcond : s.walker_id = wid ∧ s.end_time = none
    · have hmem : ∃ x ∈ s :: rest, isOpenFor wid x :=
        ⟨s, List.mem_cons_self s rest, hcond⟩
      simp only [updateWalkSession, if_pos hcond, if_pos hmem]
      simp [openCount, List.countP_cons, isOpenFor]
    · have hiff : (∃ x ∈ s :: rest, isOpenFor wid x) ↔ ∃ x ∈ rest, isOpenFor wid x := by
        constructor
        · rintro ⟨x, hx, hox⟩
          rcases List.mem_cons.1 hx with rfl | hx
          · exact absurd hox hcond
          · exact ⟨x, hx, hox⟩
        · rintro ⟨x, hx, hox⟩
          exact ⟨x, List.mem_cons_of_mem s hx, hox⟩
      simp only [updateWalkSession, if_neg hcond]
      simp only [openCount, List.countP_cons] at *
      rw [ih]
      by_cases hrest : ∃ x ∈ rest, isOpenFor wid x
      · simp [hiff, hrest]
      · simp only [hiff, hrest, if_neg, if_false]
        split_ifs <;> omega

theorem updateWalkSession_length_of_open (wid : Nat) (cam path : String)
    (dog : Bool) (now : Int) (ss : List WalkSession)
    (h : ∃ s ∈ ss, isOpenFor wid s) :
    (updateWalkSession wid cam path dog now ss).length = ss.length := by
  induction ss with
  | nil => simp at h
  | cons s rest ih =>
    by_cases hcond : s.walker_id = wid ∧ s.end_time = none
    · simp [updateWalkSession, if_pos hcond]
    · have hrest : ∃ x ∈ rest, isOpenFor wid x := by
        obtain ⟨x, hx, hox⟩ := h
        rcases List.mem_cons.1 hx with rfl | hx
        · exact absurd hox hcond
        · exact ⟨x, hx, hox⟩
      simp [updateWalkSession, if_neg hcond, ih hrest]

theorem updateWalkSession_append_of_closed (wid : Nat) (cam path : String)
    (dog : Bool) (now : Int) (ss : List WalkSession)
    (h : ∀ s ∈ ss, ¬ isOpenFor wid s) :
    updateWalkSession wid cam path dog now ss
      = ss ++ [⟨wid, now, none, [cam], [path], dog⟩] := by
  induction ss with
  | nil => rfl
  | cons s rest ih =>
    have hcond : ¬ (s.walker_id = wid ∧ s.end_time = none) :=
      h s (List.mem_cons_self s rest)
    simp [updateWalkSession, if_neg hcond,
      ih fun x hx => h x (List.mem_cons_of_mem s hx)]

theorem openCount_closeSession_le (w wid : Nat) (now : Int)
    (ss : List WalkSession) :
    openCount w (closeSession wid now ss) ≤ openCount w ss := by
  induction ss with
  | nil => simp [closeSession, openCount]
  | cons s rest ih =>
    simp only [openCount] at ih ⊢
    by_cases hcond : s.walker_id = wid ∧ s.end_time = none
    · have h2 : decide (isOpenFor w ({ s with end_time := some now } : WalkSession))
          = false := by
        simp [isOpenFor]
      simp only [closeSession, if_pos hcond, List.countP_cons, h2,
        Bool.false_eq_true, if_false, Nat.add_zero]
      exact Nat.le_add_right _ _ |>.trans (Nat.add_le_add_left (Nat.le_refl _) _)
    · simp only [closeSession, if_neg hcond, List.countP_cons]
      exact Nat.add_le_add_right ih _

theorem openCount_closeSession_self (wid : Nat) (now : Int)
    (ss : List WalkSession) :
    openCount wid (closeSession wid now ss) = openCount wid ss - 1 := by
  induction ss with
  | nil => simp [closeSession, openCount]
  | cons s rest ih =>
    simp only [openCount] at ih ⊢
    by_cases hcond : s.walker_id = wid ∧ s.end_time = none
    · have hs : decide (isOpenFor wid s) = true := by
        simp [isOpenFor, hcond.1, hcond.2]
      have hs2 : decide (isOpenFor wid ({ s with end_time := some now } : WalkSession))
          = false := by
        simp [isOpenFor]
      simp [closeSession, if_pos hcond, List.countP_cons, hs, hs2]
    · have hns : ¬ isOpenFor wid s := hcond
      have hs : decide (isOpenFor wid s) = false := decide_eq_false hns
      simp only [closeSession, if_neg hcond, List.countP_cons, hs,
        Bool.false_eq_true, if_false, Nat.add_zero]
      omega

theorem closeSession_of_not_open (wid : Nat) (now : Int)
    (ss : List WalkSession) (h : ∀ s ∈ ss, ¬ isOpenFor wid s) :
    closeSession wid now ss = ss := by
  induction ss with
  | nil => rfl
  | cons s rest ih =>
    have hcond : ¬ (s.walker_id = wid ∧ s.end_time = none) :=
      h s (List.mem_cons_self s rest)
    simp [closeSession, if_neg hcond,
      ih fun x hx => h x (List.mem_cons_of_mem s hx)]

theorem openCount_eq_zero_iff (wid : Nat) (ss : List WalkSession) :
    openCount wid ss = 0 ↔ ∀ s ∈ ss, ¬ isOpenFor wid s := by
  simp [openCount, List.countP_eq_zero]

theorem openCount_pos_iff (wid : Nat) (ss : List WalkSession) :
    0 < openCount wid ss ↔ ∃ s ∈ ss, isOpenFor wid s := by
  simp [openCount, List.countP_pos_iff]

theorem invariant_applyOp (cfg : Config) (st : TrackerState) (op : TrackerOp)
    (h : ∀ w, openCount w st.sessions ≤ 1) :
    ∀ w, openCount w (applyOp cfg st op).sessions ≤ 1 := by
  intro w
  cases op with
  | close wid now =>
    simp only [applyOp]
    exact le_trans (openCount_closeSession_le w wid now st.sessions) (h w)
  | detect camera zone path_name has_person has_dog pc dc now =>
    cases has_person with
    | false =>
      simp only [applyOp, process_not_person]
      exact h w
    | true =>
      obtain ⟨wid, -, -, hsess, -⟩ :=
        processSpec cfg st camera zone path_name has_dog pc dc now
      simp only [applyOp, hsess]
      rw [openCount_updateWalkSession]
      split_ifs with h1 h2
      · exact h w
      · have h1w : ¬ ∃ s ∈ st.sessions, isOpenFor w s := by
          rw [h2]; exact h1
        rcases Nat.eq_zero_or_pos (openCount w st.sessions) with h0 | h0
        · omega
        · exact absurd ((openCount_pos_iff w st.sessions).1 h0) h1w
      · have := h w
        omega

theorem invariant_runOps (cfg : Config) (ops : List TrackerOp) :
    ∀ st : TrackerState, (∀ w, openCount w st.sessions ≤ 1) →
      ∀ w, openCount w (runOps cfg st ops).sessions ≤ 1 := by
  induction ops with
  | nil => intro st h; exact h
  | cons op ops ih =>
    intro st h
    exact ih _ (invariant_applyOp cfg st op h)

end DogWalker

namespace DogWalker

theorem closeSession_decomp (wid : Nat) (now : Int) :
    ∀ (pre : List WalkSession) (s : WalkSession) (post : List WalkSession),
      (∀ x ∈ pre, ¬ isOpenFor wid x) → isOpenFor wid s →
      closeSession wid now (pre ++ s :: post)
        = pre ++ { s with end_time := some now } :: post
  | [], s, post, _, hs => by
    have hc : s.walker_id = wid ∧ s.end_time = none := hs
    simp [closeSession, if_pos hc]
  | x :: pre, s, post, hpre, hs => by
    have hx : ¬ (x.walker_id = wid ∧ x.end_time = none) :=
      hpre x (List.mem_cons_self x pre)
    simp only [List.cons_append, closeSession, if_neg hx]
    exact congrArg (List.cons x) (closeSession_decomp wid now pre s post
      (fun y hy => hpre y (List.mem_cons_of_mem x hy)) hs)

/-- C2: starting from any state with at most one open walk session per
walker id, every state reachable by `process_detection` / `close_session`
calls still has at most one open session per walker id; moreover
`_update_walk_session` keeps the row count unchanged when an open session
exists for the walker and otherwise appends exactly one fresh open
session. -/
theorem session_invariant (cfg : Config) (st : TrackerState) (ops : List TrackerOp)
    (hinv : ∀ w, openCount w st.sessions ≤ 1) :
    (∀ w, openCount w (runOps cfg st ops).sessions ≤ 1) ∧
    (∀ (wid : Nat) (cam path : String) (dog : Bool) (now : Int)
        (ss : List WalkSession),
      (∃ s ∈ ss, isOpenFor wid s) →
      (updateWalkSession wid cam path dog now ss).length = ss.length) ∧
    (∀ (wid : Nat) (cam path : String) (dog : Bool) (now : Int)
        (ss : List WalkSession),
      (∀ s ∈ ss, ¬ isOpenFor wid s) →
      updateWalkSession wid cam path dog now ss
        = ss ++ [⟨wid, now, none, [cam], [path], dog⟩]) :=
  ⟨invariant_runOps cfg ops st hinv,
   fun wid cam path dog now ss h =>
     updateWalkSession_length_of_open wid cam path dog now ss h,
   fun wid cam path dog now ss h =>
     updateWalkSession_append_of_closed wid cam path dog now ss h⟩

theorem session_invariant_witness :
    (∀ w, openCount w emptyState.sessions ≤ 1) ∧
    openCount 0 (runOps ⟨30, 5⟩ emptyState
      [TrackerOp.detect "a" "z" "p" true false 1 0 0,
       TrackerOp.close 0 10]).sessions ≤ 1 :=
  ⟨fun w => by simp [emptyState, openCount],
   (session_invariant ⟨30, 5⟩ emptyState
      [TrackerOp.detect "a" "z" "p" true false 1 0 0, TrackerOp.close 0 10]
      (fun w => by simp [emptyState, openCount])).1 0⟩

/-- C8: when strictly more than the cross-camera window has elapsed since
every recent-detection entry, the matcher finds no match and
`process_detection` allocates a fresh walker id new to the walkers table;
after the call the window holds exactly the new entry, and pruning removes
precisely the entries older than `now` minus the window. -/
theorem window_expiry (cfg : Config) (st : TrackerState)
    (camera zone path_name : String) (has_dog : Bool) (pc dc : Rat) (now : Int)
    (hstale : ∀ d ∈ st.recent_detections,
      d.timestamp < now - cfg.cross_camera_window)
    (hfresh : ∀ w ∈ st.walkers, w.id < st.next_walker_id)
    (hwin : 0 ≤ cfg.cross_camera_window) :
    matchToWalker cfg st.recent_detections camera zone has_dog now = none ∧
    (process_detection cfg st camera zone path_name true has_dog pc dc now).1
      = some st.next_walker_id ∧
    (∀ w ∈ st.walkers, w.id ≠ st.next_walker_id) ∧
    (process_detection cfg st camera zone path_name true has_dog pc dc now).2.walkers
      = st.walkers ++ [⟨st.next_walker_id, now, now, 1⟩] ∧
    (process_detection cfg st camera zone path_name true has_dog pc dc now).2.recent_detections
      = [⟨st.next_walker_id, camera, now, has_dog⟩] ∧
    (∀ (l : List RecentDetection) (m : Int) (d : RecentDetection),
      d ∈ cleanRecentDetections cfg m l ↔
        d ∈ l ∧ ¬ d.timestamp < m - cfg.cross_camera_window) := by
  have hnone : matchToWalker cfg st.recent_detections camera zone has_dog now = none := by
    apply matchScan_none_of_stale
    intro d hd
    exact hstale d (List.mem_reverse.1 hd)
  have hclean : cleanRecentDetections cfg now st.recent_detections = [] := by
    simp only [cleanRecentDetections, List.filter_eq_nil_iff, decide_eq_true_eq]
    intro d hd
    have := hstale d hd
    omega
  have he : now - cfg.cross_camera_window
      ≤ (⟨st.next_walker_id, camera, now, has_dog⟩ : RecentDetection).timestamp := by
    show now - cfg.cross_camera_window ≤ now
    omega
  have hrec : cleanRecentDetections cfg now
      (st.recent_detections ++ [⟨st.next_walker_id, camera, now, has_dog⟩])
      = [⟨st.next_walker_id, camera, now, has_dog⟩] := by
    rw [cleanRecent_append_last cfg now st.recent_detections _ he, hclean]
    rfl
  refine ⟨hnone, ?_, ?_, ?_, ?_, ?_⟩
  · simp [process_detection, hnone]
  · intro w hw
    exact Nat.ne_of_lt (hfresh w hw)
  · simp [process_detection, hnone]
  · simp [process_detection, hnone, hrec]
  · intro l m d
    rw [mem_cleanRecentDetections]
    simp [not_lt]

theorem window_expiry_witness :
    ((∀ d ∈ ({ emptyState with
          recent_detections := [⟨0, "a", 0, false⟩],
          walkers := [⟨0, 0, 0, 1⟩],
          next_walker_id := 1 } : TrackerState).recent_detections,
        d.timestamp < 100 - (⟨30, 5⟩ : Config).cross_camera_window) ∧
      (∀ w ∈ ({ emptyState with
          recent_detections := [⟨0, "a", 0, false⟩],
          walkers := [⟨0, 0, 0, 1⟩],
          next_walker_id := 1 } : TrackerState).walkers,
        w.id < ({ emptyState with
          recent_detections := [⟨0, "a", 0, false⟩],
          walkers := [⟨0, 0, 0, 1⟩],
          next_walker_id := 1 } : TrackerState).next_walker_id) ∧
      (0 : Int) ≤ (⟨30, 5⟩ : Config).cross_camera_window) ∧
    matchToWalker ⟨30, 5⟩ ({ emptyState with
        recent_detections := [⟨0, "a", 0, false⟩],
        walkers := [⟨0, 0, 0, 1⟩],
        next_walker_id := 1 } : TrackerState).recent_detections
      "a" "z" false 100 = none ∧
    (process_detection ⟨30, 5⟩ ({ emptyState with
        recent_detections := [⟨0, "a", 0, false⟩],
        walkers := [⟨0, 0, 0, 1⟩],
        next_walker_id := 1 } : TrackerState) "a" "z" "p" true false 1 0 100).1
      = some 1 :=
  ⟨⟨by decide, by decide, by decide⟩,
   (window_expiry ⟨30, 5⟩ _ "a" "z" "p" false 1 0 100
      (by decide) (by decide) (by decide)).1,
   (window_expiry ⟨30, 5⟩ _ "a" "z" "p" false 1 0 100
      (by decide) (by decide) (by decide)).2.1⟩

/-- C9: `close_session` stamps the end time of the walker's open session
when one exists (precisely the first open row, everything else untouched),
and is a silent no-op when no open session exists, so a double close is
tolerated. -/
theorem close_session_spec (wid : Nat) (now now2 : Int) (ss : List WalkSession)
    (hinv : openCount wid ss ≤ 1) :
    ((∀ s ∈ ss, ¬ isOpenFor wid s) → closeSession wid now ss = ss) ∧
    (∀ pre s post, ss = pre ++ s :: post → (∀ x ∈ pre, ¬ isOpenFor wid x) →
      isOpenFor wid s →
      closeSession wid now ss = pre ++ { s with end_time := some now } :: post) ∧
    closeSession wid now2 (closeSession wid now ss) = closeSession wid now ss := by
  refine ⟨closeSession_of_not_open wid now ss, ?_, ?_⟩
  · intro pre s post hss hpre hs
    rw [hss]
    exact closeSession_decomp wid now pre s post hpre hs
  · have hz : openCount wid (closeSession wid now ss) = 0 := by
      rw [openCount_closeSession_self]
      omega
    exact closeSession_of_not_open wid now2 _ ((openCount_eq_zero_iff _ _).1 hz)

theorem close_session_spec_witness :
    openCount 0 [⟨0, 0, none, ["a"], ["p"], false⟩] ≤ 1 ∧
    closeSession 0 7 (closeSession 0 5 [⟨0, 0, none, ["a"], ["p"], false⟩])
      = closeSession 0 5 [⟨0, 0, none, ["a"], ["p"], false⟩] :=
  ⟨by decide,
   (close_session_spec 0 5 7 [⟨0, 0, none, ["a"], ["p"], false⟩] (by decide)).2.2⟩

/-- C10: every person-count event the ingestion adapter accepts reaches the
matcher with the dog flag hard-coded to `false` and the person confidence
set to the configured minimum-confidence constant. -/
theorem adapter_constant_call (cfg : AppConfig) (camera object_type : String)
    (payload : Option Int) (call : DetectionCall)
    (h : app_process_detection cfg camera object_type payload = some call) :
    call.has_dog = false ∧
    call.person_confidence = cfg.min_person_confidence ∧
    call.has_person = true ∧ object_type = "person" := by
  cases hl : lookupCamera camera cfg.cameras with
  | none => simp [app_process_detection, hl] at h
  | some cc =>
    simp only [app_process_detection, hl] at h
    split_ifs at h with hc
    cases Option.some.inj h
    exact ⟨rfl, rfl, rfl, hc.1⟩

theorem adapter_constant_call_witness :
    app_process_detection ⟨[("front", ⟨"z", "p"⟩)], 1⟩ "front" "person" (some 2)
      = some ⟨"front", "z", "p", true, false, 1⟩ ∧
    (⟨"front", "z", "p", true, false, 1⟩ : DetectionCall).has_dog = false ∧
    (⟨"front", "z", "p", true, false, 1⟩ : DetectionCall).person_confidence
      = (⟨[("front", ⟨"z", "p"⟩)], 1⟩ : AppConfig).min_person_confidence ∧
    (⟨"front", "z", "p", true, false, 1⟩ : DetectionCall).has_person = true ∧
    "person" = "person" :=
  ⟨by decide,
   adapter_constant_call ⟨[("front", ⟨"z", "p"⟩)], 1⟩ "front" "person" (some 2)
     ⟨"front", "z", "p", true, false, 1⟩ (by decide)⟩

end DogWalker

namespace DogWalker

theorem process_empty (cfg : Config) (cam zone path : String) (dog : Bool)
    (pc dc : Rat) (t : Int) (h0 : 0 ≤ cfg.cross_camera_window) :
    process_detection cfg emptyState cam zone path true dog pc dc t
      = (some 0,
         { walkers := [⟨0, t, t, 1⟩],
           detections := [⟨0, cam, zone, path, t, "enter", dog, pc,
             if dog then some dc else none⟩],
           sessions := [⟨0, t, none, [cam], [path], dog⟩],
           images := [], recent_detections := [⟨0, cam, t, dog⟩],
           files := [], next_walker_id := 1, next_image_id := 0 }) := by
  have hmatch : matchToWalker cfg ([] : List RecentDetection) cam zone dog t = none := rfl
  have ht : t - cfg.cross_camera_window ≤ t := by omega
  simp [process_detection, emptyState, hmatch, cleanRecentDetections, ht,
    updateWalkSession]
  omega

/-- C3: a detection immediately following one on a different camera with the
same dog flag, whose evidence entry is still inside the cross-camera
window, resolves to the same walker id — with no minimum elapsed time —
and creates no new walker record. -/
theorem cross_camera_join (cfg : Config) (st : TrackerState)
    (cam1 zone1 path1 cam2 zone2 path2 : String) (dog : Bool)
    (pc1 dc1 pc2 dc2 : Rat) (t1 t2 : Int)
    (hcam : cam1 ≠ cam2) (hle : t1 ≤ t2)
    (hwin : t2 - t1 ≤ cfg.cross_camera_window) :
    (process_detection cfg
        (process_detection cfg st cam1 zone1 path1 true dog pc1 dc1 t1).2
        cam2 zone2 path2 true dog pc2 dc2 t2).1
      = (process_detection cfg st cam1 zone1 path1 true dog pc1 dc1 t1).1 ∧
    (process_detection cfg
        (process_detection cfg st cam1 zone1 path1 true dog pc1 dc1 t1).2
        cam2 zone2 path2 true dog pc2 dc2 t2).2.walkers.length
      = (process_detection cfg st cam1 zone1 path1 true dog pc1 dc1 t1).2.walkers.length := by
  obtain ⟨w1, h1, hrec, -, -⟩ := processSpec cfg st cam1 zone1 path1 dog pc1 dc1 t1
  set st1 := (process_detection cfg st cam1 zone1 path1 true dog pc1 dc1 t1).2 with hst1
  have he : t1 - cfg.cross_camera_window
      ≤ (⟨w1, cam1, t1, dog⟩ : RecentDetection).timestamp := by
    show t1 - cfg.cross_camera_window ≤ t1
    omega
  have hrec1 : st1.recent_detections
      = cleanRecentDetections cfg t1 st.recent_detections ++ [⟨w1, cam1, t1, dog⟩] := by
    rw [hrec, cleanRecent_append_last cfg t1 _ _ he]
  have hm2 : matchToWalker cfg st1.recent_detections cam2 zone2 dog t2 = some w1 := by
    rw [matchToWalker, hrec1, List.reverse_append, List.reverse_singleton,
      List.singleton_append, matchScan]
    dsimp only
    rw [if_neg (by omega : ¬ (t1 < t2 - cfg.cross_camera_window)),
      if_pos rfl, if_pos hcam]
  obtain ⟨w2, h2, -, -, hcase2⟩ := processSpec cfg st1 cam2 zone2 path2 dog pc2 dc2 t2
  rcases hcase2 with ⟨hm, hlen⟩ | ⟨hm, -, -⟩
  · have hw : w2 = w1 := Option.some.inj (hm.symm.trans hm2)
    exact ⟨by rw [h2, h1, hw], hlen⟩
  · rw [hm] at hm2
    exact absurd hm2 (by simp)

theorem cross_camera_join_witness :
    ("a" ≠ "b" ∧ (0 : Int) ≤ 5 ∧ (5 : Int) - 0 ≤ (⟨30, 5⟩ : Config).cross_camera_window) ∧
    (process_detection ⟨30, 5⟩
        (process_detection ⟨30, 5⟩ emptyState "a" "z" "p" true false 1 0 0).2
        "b" "z" "p" true false 1 0 5).1
      = (process_detection ⟨30, 5⟩ emptyState "a" "z" "p" true false 1 0 0).1 :=
  ⟨⟨by decide, by decide, by decide⟩,
   (cross_camera_join ⟨30, 5⟩ emptyState "a" "z" "p" "b" "z" "p" false 1 0 1 0 0 5
      (by decide) (by decide) (by decide)).1⟩

/-- C4 counterexample: with a 100-second window, two same-camera same-dog
detections exactly 60 seconds apart do NOT resolve to the same walker —
the elapsed-time branch requires strictly more than 60 seconds — so the
claimed inclusive (`>= 60s`) bound is false at 60s. -/
theorem same_camera_sixty_cex :
    (process_detection ⟨100, 5⟩ emptyState "a" "z" "p" true false 1 0 0).1 = some 0 ∧
    (process_detection ⟨100, 5⟩
        (process_detection ⟨100, 5⟩ emptyState "a" "z" "p" true false 1 0 0).2
        "a" "z" "p" true false 1 0 60).1 = some 1 ∧
    (process_detection ⟨100, 5⟩
        (process_detection ⟨100, 5⟩ emptyState "a" "z" "p" true false 1 0 0).2
        "a" "z" "p" true false 1 0 60).2.walkers.length = 2 := by
  decide

/-- C4 (amended): a detection immediately following one on the same camera
with the same dog flag resolves to the same walker id, and creates no new
walker record, when STRICTLY more than 60 seconds have elapsed and the
earlier evidence entry is still inside the cross-camera window. -/
theorem same_camera_gap_amended (cfg : Config) (st : TrackerState)
    (cam zone1 path1 zone2 path2 : String) (dog : Bool)
    (pc1 dc1 pc2 dc2 : Rat) (t1 t2 : Int)
    (hgt : 60 < t2 - t1) (hwin : t2 - t1 ≤ cfg.cross_camera_window) :
    (process_detection cfg
        (process_detection cfg st cam zone1 path1 true dog pc1 dc1 t1).2
        cam zone2 path2 true dog pc2 dc2 t2).1
      = (process_detection cfg st cam zone1 path1 true dog pc1 dc1 t1).1 ∧
    (process_detection cfg
        (process_detection cfg st cam zone1 path1 true dog pc1 dc1 t1).2
        cam zone2 path2 true dog pc2 dc2 t2).2.walkers.length
      = (process_detection cfg st cam zone1 path1 true dog pc1 dc1 t1).2.walkers.length := by
  obtain ⟨w1, h1, hrec, -, -⟩ := processSpec cfg st cam zone1 path1 dog pc1 dc1 t1
  set st1 := (process_detection cfg st cam zone1 path1 true dog pc1 dc1 t1).2 with hst1
  have he : t1 - cfg.cross_camera_window
      ≤ (⟨w1, cam, t1, dog⟩ : RecentDetection).timestamp := by
    show t1 - cfg.cross_camera_window ≤ t1
    omega
  have hrec1 : st1.recent_detections
      = cleanRecentDetections cfg t1 st.recent_detections ++ [⟨w1, cam, t1, dog⟩] := by
    rw [hrec, cleanRecent_append_last cfg t1 _ _ he]
  have hm2 : matchToWalker cfg st1.recent_detections cam zone2 dog t2 = some w1 := by
    rw [matchToWalker, hrec1, List.reverse_append, List.reverse_singleton,
      List.singleton_append, matchScan]
    dsimp only
    rw [if_neg (by omega : ¬ (t1 < t2 - cfg.cross_camera_window)),
      if_pos rfl, if_neg (by simp : ¬ (cam ≠ cam)),
      if_pos (by omega : (60 : Int) < t2 - t1)]
  obtain ⟨w2, h2, -, -, hcase2⟩ := processSpec cfg st1 cam zone2 path2 dog pc2 dc2 t2
  rcases hcase2 with ⟨hm, hlen⟩ | ⟨hm, -, -⟩
  · have hw : w2 = w1 := Option.some.inj (hm.symm.trans hm2)
    exact ⟨by rw [h2, h1, hw], hlen⟩
  · rw [hm] at hm2
    exact absurd hm2 (by simp)

theorem same_camera_gap_amended_witness :
    ((60 : Int) < 61 - 0 ∧ (61 : Int) - 0 ≤ (⟨100, 5⟩ : Config).cross_camera_window) ∧
    (process_detection ⟨100, 5⟩
        (process_detection ⟨100, 5⟩ emptyState "a" "z" "p" true false 1 0 0).2
        "a" "z" "p" true false 1 0 61).1
      = (process_detection ⟨100, 5⟩ emptyState "a" "z" "p" true false 1 0 0).1 :=
  ⟨⟨by decide, by decide⟩,
   (same_camera_gap_amended ⟨100, 5⟩ emptyState "a" "z" "p" "z" "p" false 1 0 1 0 0 61
      (by decide) (by decide)).1⟩

/-- C1 counterexample: with a 30-second window, two same-camera same-dog
detections 10 seconds apart (well under the 60-second floor, entry inside
the window) resolve to DIFFERENT walker ids and a second walker identity
is created — the matcher skips sub-60-second same-camera entries instead
of reusing their walker id. -/
theorem debounce_cex :
    (process_detection ⟨30, 5⟩ emptyState "a" "z" "p" true false 1 0 0).1 = some 0 ∧
    (process_detection ⟨30, 5⟩
        (process_detection ⟨30, 5⟩ emptyState "a" "z" "p" true false 1 0 0).2
        "a" "z" "p" true false 1 0 10).1 = some 1 ∧
    (process_detection ⟨30, 5⟩
        (process_detection ⟨30, 5⟩ emptyState "a" "z" "p" true false 1 0 0).2
        "a" "z" "p" true false 1 0 10).2.walkers.length = 2 := by
  decide

/-- C1 (amended): for an isolated pair of same-camera same-dog detections
less than 60 seconds apart (entry inside the window), resolving the second
returns a FRESH walker id distinct from the first and a second walker
identity is created: the same-camera branch only matches after more than
60 seconds. -/
theorem same_camera_debounce_amended (cfg : Config)
    (cam zone1 path1 zone2 path2 : String) (dog : Bool)
    (pc1 dc1 pc2 dc2 : Rat) (t1 t2 : Int)
    (hle : t1 ≤ t2) (hlt : t2 - t1 < 60)
    (hwin : t2 - t1 ≤ cfg.cross_camera_window) :
    (process_detection cfg emptyState cam zone1 path1 true dog pc1 dc1 t1).1 = some 0 ∧
    (process_detection cfg
        (process_detection cfg emptyState cam zone1 path1 true dog pc1 dc1 t1).2
        cam zone2 path2 true dog pc2 dc2 t2).1 = some 1 ∧
    (process_detection cfg
        (process_detection cfg emptyState cam zone1 path1 true dog pc1 dc1 t1).2
        cam zone2 path2 true dog pc2 dc2 t2).2.walkers.length = 2 := by
  have h0 : (0 : Int) ≤ cfg.cross_camera_window := by omega
  have hpe := process_empty cfg cam zone1 path1 dog pc1 dc1 t1 h0
  have hm2 : matchToWalker cfg [⟨0, cam, t1, dog⟩] cam zone2 dog t2 = none := by
    rw [matchToWalker, List.reverse_singleton, matchScan]
    dsimp only
    rw [if_neg (by omega : ¬ (t1 < t2 - cfg.cross_camera_window)),
      if_pos rfl, if_neg (by simp : ¬ (cam ≠ cam)),
      if_neg (by omega : ¬ ((60 : Int) < t2 - t1))]
    rfl
  rw [hpe]
  refine ⟨rfl, ?_, ?_⟩ <;> simp [process_detection, hm2]

theorem same_camera_debounce_amended_witness :
    ((0 : Int) ≤ 10 ∧ (10 : Int) - 0 < 60 ∧
      (10 : Int) - 0 ≤ (⟨30, 5⟩ : Config).cross_camera_window) ∧
    (process_detection ⟨30, 5⟩
        (process_detection ⟨30, 5⟩ emptyState "a" "z" "p" true false 1 0 0).2
        "a" "z" "p" true false 1 0 10).1 = some 1 :=
  ⟨⟨by decide, by decide, by decide⟩,
   (same_camera_debounce_amended ⟨30, 5⟩ "a" "z" "p" "z" "p" false 1 0 1 0 0 10
      (by decide) (by decide) (by decide)).2.1⟩

/-- C7: an isolated pair of temporally adjacent detections with opposite
dog-presence flags (same or different cameras, earlier entry inside the
window) resolves to two distinct walker ids; in general the matcher only
ever returns the walker id of an evidence entry whose dog flag equals the
current detection's. -/
theorem dog_status_override (cfg : Config)
    (cam1 zone1 path1 cam2 zone2 path2 : String) (dog : Bool)
    (pc1 dc1 pc2 dc2 : Rat) (t1 t2 : Int)
    (hle : t1 ≤ t2) (hwin : t2 - t1 ≤ cfg.cross_camera_window) :
    (process_detection cfg emptyState cam1 zone1 path1 true dog pc1 dc1 t1).1 = some 0 ∧
    (process_detection cfg
        (process_detection cfg emptyState cam1 zone1 path1 true dog pc1 dc1 t1).2
        cam2 zone2 path2 true (!dog) pc2 dc2 t2).1 = some 1 ∧
    (process_detection cfg
        (process_detection cfg emptyState cam1 zone1 path1 true dog pc1 dc1 t1).2
        cam2 zone2 path2 true (!dog) pc2 dc2 t2).1
      ≠ (process_detection cfg emptyState cam1 zone1 path1 true dog pc1 dc1 t1).1 ∧
    (∀ (recents : List RecentDetection) (camera zone : String) (hd : Bool)
        (now : Int) (wid : Nat),
      matchToWalker cfg recents camera zone hd now = some wid →
      ∃ e ∈ recents, e.walker_id = wid ∧ e.has_dog = hd) := by
  have h0 : (0 : Int) ≤ cfg.cross_camera_window := by omega
  have hpe := process_empty cfg cam1 zone1 path1 dog pc1 dc1 t1 h0
  have hm2 : matchToWalker cfg [⟨0, cam1, t1, dog⟩] cam2 zone2 (!dog) t2 = none := by
    rw [matchToWalker, List.reverse_singleton, matchScan]
    dsimp only
    rw [if_neg (by omega : ¬ (t1 < t2 - cfg.cross_camera_window)),
      if_neg (by simp : ¬ (dog = !dog))]
    rfl
  refine ⟨by rw [hpe], ?_, ?_, ?_⟩
  · rw [hpe]
    simp [process_detection, hm2]
  · rw [hpe]
    simp [process_detection, hm2]
  · intro recents camera zone hd now wid hm
    obtain ⟨e, he, hp⟩ := matchScan_mem_flag camera hd now
      (now - cfg.cross_camera_window) recents.reverse wid hm
    exact ⟨e, List.mem_reverse.1 he, hp⟩

theorem dog_status_override_witness :
    ((0 : Int) ≤ 5 ∧ (5 : Int) - 0 ≤ (⟨30, 5⟩ : Config).cross_camera_window) ∧
    (process_detection ⟨30, 5⟩
        (process_detection ⟨30, 5⟩ emptyState "a" "z" "p" true false 1 0 0).2
        "b" "z" "p" true (!false) 1 1 5).1
      ≠ (process_detection ⟨30, 5⟩ emptyState "a" "z" "p" true false 1 0 0).1 :=
  ⟨⟨by decide, by decide⟩,
   (dog_status_override ⟨30, 5⟩ "a" "z" "p" "b" "z" "p" false 1 0 1 1 0 5
      (by decide) (by decide)).2.2.1⟩

/-- C5 counterexample: a detection that MATCHES an existing walker (second
call resolves to walker 0) leaves the walker record's cumulative walk
count unchanged at 1 — only the last-seen timestamp is mutated (0 to 5) —
so the claim that a match mutates the walk count is false. -/
theorem match_keeps_walk_count_cex :
    (process_detection ⟨30, 5⟩
        (process_detection ⟨30, 5⟩ emptyState "a" "z" "p" true false 1 0 0).2
        "b" "z" "p" true false 1 0 5).1 = some 0 ∧
    (process_detection ⟨30, 5⟩
        (process_detection ⟨30, 5⟩ emptyState "a" "z" "p" true false 1 0 0).2
        "b" "z" "p" true false 1 0 5).2.walkers = [⟨0, 0, 5, 1⟩] := by
  decide

/-- C5 (amended): on a matching resolve the tracker updates ONLY the
matched walker's last-seen timestamp — every walker's total-walks count is
unchanged — and on a non-matching resolve it creates a walker record with
first-seen = last-seen = now and walk count 1. -/
theorem match_side_effects (cfg : Config) (st : TrackerState)
    (camera zone path_name : String) (has_dog : Bool) (pc dc : Rat) (now : Int) :
    (∀ wid, matchToWalker cfg st.recent_detections camera zone has_dog now = some wid →
      (process_detection cfg st camera zone path_name true has_dog pc dc now).1
        = some wid ∧
      (process_detection cfg st camera zone path_name true has_dog pc dc now).2.walkers
        = st.walkers.map
            (fun w => if w.id = wid then { w with last_seen := now } else w) ∧
      (process_detection cfg st camera zone path_name true has_dog pc dc now).2.walkers.map
          (fun w => w.total_walks)
        = st.walkers.map (fun w => w.total_walks)) ∧
    (matchToWalker cfg st.recent_detections camera zone has_dog now = none →
      (process_detection cfg st camera zone path_name true has_dog pc dc now).1
        = some st.next_walker_id ∧
      (process_detection cfg st camera zone path_name true has_dog pc dc now).2.walkers
        = st.walkers ++ [⟨st.next_walker_id, now, now, 1⟩]) := by
  constructor
  · intro wid hm
    refine ⟨by simp [process_detection, hm], by simp [process_detection, hm], ?_⟩
    simp only [process_detection, hm, if_pos]
    rw [List.map_map]
    apply List.map_congr_left
    intro a ha
    by_cases hid : a.id = wid <;> simp [hid]
  · intro hm
    exact ⟨by simp [process_detection, hm], by simp [process_detection, hm]⟩

theorem match_side_effects_witness :
    matchToWalker ⟨30, 5⟩
      (process_detection ⟨30, 5⟩ emptyState "a" "z" "p" true false 1 0 0).2.recent_detections
      "b" "z" false 5 = some 0 ∧
    (process_detection ⟨30, 5⟩
        (process_detection ⟨30, 5⟩ emptyState "a" "z" "p" true false 1 0 0).2
        "b" "z" "p" true false 1 0 5).1 = some 0 :=
  ⟨by decide,
   ((match_side_effects ⟨30, 5⟩
      (process_detection ⟨30, 5⟩ emptyState "a" "z" "p" true false 1 0 0).2
      "b" "z" "p" false 1 0 5).1 0 (by decide)).1⟩

end DogWalker

namespace DogWalker

theorem cleanup_spec (wid maxN : Nat) (st : TrackerState)
    (hnodup : (st.images.map (fun i => i.id)).Nodup) :
    (walkerImages wid (cleanupOldImages wid maxN st).images).length ≤ maxN ∧
    (∀ i ∈ (cleanupOldImages wid maxN st).images, i ∈ st.images) ∧
    (∀ i ∈ (cleanupOldImages wid maxN st).images, i.walker_id = wid →
      ∀ e ∈ st.images, e.walker_id = wid →
        e ∉ (cleanupOldImages wid maxN st).images → imageRank i e) ∧
    (∀ e ∈ st.images, e.walker_id = wid →
      e ∉ (cleanupOldImages wid maxN st).images →
      e.image_path ∉ (cleanupOldImages wid maxN st).files) ∧
    (cleanupOldImages wid maxN st).images.filter (fun i => decide (¬ i.walker_id = wid))
      = st.images.filter (fun i => decide (¬ i.walker_id = wid)) ∧
    (walkerImages wid (cleanupOldImages wid maxN st).images).Perm
      ((rankedImages wid st.images).take maxN) ∧
    ((walkerImages wid st.images).length ≤ maxN →
      cleanupOldImages wid maxN st = st) := by
  have hlen : (rankedImages wid st.images).length
      = (walkerImages wid st.images).length :=
    List.length_insertionSort imageRank _
  by_cases hlt : maxN < (rankedImages wid st.images).length
  case neg =>
    have hcl : cleanupOldImages wid maxN st = st := by
      simp [cleanupOldImages, hlt]
    have hperm : (rankedImages wid st.images).Perm (walkerImages wid st.images) :=
      List.perm_insertionSort imageRank _
    have htake : (rankedImages wid st.images).take maxN
        = rankedImages wid st.images :=
      List.take_of_length_le (Nat.le_of_not_lt hlt)
    rw [hcl]
    refine ⟨?_, fun i hi => hi, ?_, ?_, rfl, ?_, fun h => rfl⟩
    · omega
    · intro i hi hwi e he hew hne
      exact absurd he hne
    · intro e he hew hne
      exact absurd he hne
    · rw [htake]
      exact hperm.symm
  case pos =>
    have himg : (cleanupOldImages wid maxN st).images
        = st.images.filter (fun i =>
            decide (∀ e ∈ (rankedImages wid st.images).drop maxN, e.id ≠ i.id)) := by
      simp [cleanupOldImages, hlt]
    have hfil : (cleanupOldImages wid maxN st).files
        = st.files.filter (fun p =>
            decide (∀ e ∈ (rankedImages wid st.images).drop maxN, e.image_path ≠ p)) := by
      simp [cleanupOldImages, hlt]
    have hperm : (rankedImages wid st.images).Perm (walkerImages wid st.images) :=
      List.perm_insertionSort imageRank _
    have hsortedP : (rankedImages wid st.images).Pairwise imageRank :=
      List.sorted_insertionSort imageRank _
    have hsubW : ∀ i ∈ walkerImages wid st.images, i ∈ st.images ∧ i.walker_id = wid := by
      intro i hi
      have h2 := List.mem_filter.1 hi
      exact ⟨h2.1, of_decide_eq_true h2.2⟩
    have hmemS : ∀ i ∈ rankedImages wid st.images, i ∈ st.images ∧ i.walker_id = wid :=
      fun i hi => hsubW i (hperm.subset hi)
    have hndW : ((walkerImages wid st.images).map (fun i => i.id)).Nodup :=
      hnodup.sublist ((List.filter_sublist st.images).map _)
    have hndS : ((rankedImages wid st.images).map (fun i => i.id)).Nodup :=
      ((hperm.map _).nodup_iff).2 hndW
    have hndS2 : (rankedImages wid st.images).Nodup := hndS.of_map _
    have hdisj : List.Disjoint ((rankedImages wid st.images).take maxN)
        ((rankedImages wid st.images).drop maxN) :=
      List.disjoint_take_drop hndS2 (le_refl maxN)
    have htd : (rankedImages wid st.images).take maxN
          ++ (rankedImages wid st.images).drop maxN
        = rankedImages wid st.images := List.take_append_drop maxN _
    have hpairs : ∀ i ∈ (rankedImages wid st.images).take maxN,
        ∀ e ∈ (rankedImages wid st.images).drop maxN, imageRank i e := by
      have hp := hsortedP
      rw [← htd] at hp
      exact fun i hi e he => (List.pairwise_append.1 hp).2.2 i hi e he
    have hdoomed_mem : ∀ e ∈ (rankedImages wid st.images).drop maxN,
        e ∈ st.images ∧ e.walker_id = wid :=
      fun e he => hmemS e (List.mem_of_mem_drop he)
    have hinj : ∀ x ∈ st.images, ∀ y ∈ st.images, x.id = y.id → x = y :=
      fun x hx y hy => List.inj_on_of_nodup_map hnodup hx hy
    have hpost : ∀ i ∈ st.images,
        (i ∈ (cleanupOldImages wid maxN st).images ↔
          i ∉ (rankedImages wid st.images).drop maxN) := by
      intro i hi
      rw [himg, List.mem_filter]
      constructor
      · rintro ⟨-, hpred⟩ hiD
        exact absurd rfl (of_decide_eq_true hpred i hiD)
      · intro hnd2
        refine ⟨hi, decide_eq_true ?_⟩
        intro e heD heq
        exact hnd2 ((hinj e (hdoomed_mem e heD).1 i hi heq) ▸ heD)
    have hevicted : ∀ e ∈ st.images, e.walker_id = wid →
        e ∉ (cleanupOldImages wid maxN st).images →
        e ∈ (rankedImages wid st.images).drop maxN := by
      intro e he hew hnp
      by_contra hnd2
      exact hnp ((hpost e he).2 hnd2)
    have hfilter_doomed : ((rankedImages wid st.images).drop maxN).filter
        (fun i => decide (∀ e ∈ (rankedImages wid st.images).drop maxN, e.id ≠ i.id))
        = [] := by
      rw [List.filter_eq_nil_iff]
      intro a ha hpred
      exact absurd rfl (of_decide_eq_true hpred a ha)
    have hfilter_keep : ((rankedImages wid st.images).take maxN).filter
        (fun i => decide (∀ e ∈ (rankedImages wid st.images).drop maxN, e.id ≠ i.id))
        = (rankedImages wid st.images).take maxN := by
      rw [List.filter_eq_self]
      intro a ha
      apply decide_eq_true
      intro e heD heq
      have hae : e = a :=
        hinj e (hdoomed_mem e heD).1 a (hmemS a (List.mem_of_mem_take ha)).1 heq
      exact hdisj ha (hae ▸ heD)
    have hranked_filter : (rankedImages wid st.images).filter
        (fun i => decide (∀ e ∈ (rankedImages wid st.images).drop maxN, e.id ≠ i.id))
        = (rankedImages wid st.images).take maxN := by
      have h1 := List.filter_append
        ((rankedImages wid st.images).take maxN)
        ((rankedImages wid st.images).drop maxN)
        (p := fun i => decide (∀ e ∈ (rankedImages wid st.images).drop maxN, e.id ≠ i.id))
      rw [htd] at h1
      rw [h1, hfilter_keep, hfilter_doomed, List.append_nil]
    have hpostW : walkerImages wid (cleanupOldImages wid maxN st).images
        = (walkerImages wid st.images).filter
            (fun i => decide (∀ e ∈ (rankedImages wid st.images).drop maxN, e.id ≠ i.id)) := by
      rw [himg]
      exact List.filter_comm _ _ _
    have hpermKeep : (walkerImages wid (cleanupOldImages wid maxN st).images).Perm
        ((rankedImages wid st.images).take maxN) := by
      rw [hpostW, ← hranked_filter]
      exact (hperm.filter _).symm
    refine ⟨?_, ?_, ?_, ?_, ?_, hpermKeep, ?_⟩
    · rw [hpermKeep.length_eq, List.length_take]
      exact min_le_left _ _
    · intro i hi
      rw [himg] at hi
      exact (List.mem_filter.1 hi).1
    · intro i hi hwi e he hew hnp
      have hiW : i ∈ walkerImages wid (cleanupOldImages wid maxN st).images :=
        List.mem_filter.2 ⟨hi, decide_eq_true hwi⟩
      exact hpairs i (hpermKeep.subset hiW) e (hevicted e he hew hnp)
    · intro e he hew hnp
      have heD := hevicted e he hew hnp
      rw [hfil]
      intro hmem
      exact absurd rfl (of_decide_eq_true (List.mem_filter.1 hmem).2 e heD)
    · rw [himg, List.filter_comm, List.filter_eq_self]
      intro a ha
      apply decide_eq_true
      intro e heD heq
      have ha2 := List.mem_filter.1 ha
      have hea : e = a := hinj e (hdoomed_mem e heD).1 a ha2.1 heq
      exact (of_decide_eq_true ha2.2) (hea ▸ (hdoomed_mem e heD).2)
    · intro hle
      omega

/-- C6: after every `save_walker_image` call the stored image count for
that walker is at most the configured maximum; the retained rows come from
the pre-existing rows plus the new one, every retained row of the walker
ranks at least as high (quality descending, timestamp descending) as every
evicted row, every evicted row's file is gone from disk and its metadata
row removed, and the image rows of all other walkers are untouched.
Moreover the retained set is exactly the top-max: the walker's retained
rows are a permutation of the first `max` rows of the ranked
(quality desc, timestamp desc) list, their count is exactly
`min max n` for `n` rows present after insertion, and when `n` is within
the budget nothing at all is evicted. -/
theorem image_retention (cfg : Config) (st : TrackerState) (wid : Nat)
    (ipath itype cam : String) (q : Rat) (now : Int)
    (hnodup : (st.images.map (fun i => i.id)).Nodup)
    (hfresh : ∀ i ∈ st.images, i.id < st.next_image_id) :
    (walkerImages wid (save_walker_image cfg st wid ipath itype cam q now).images).length
      ≤ cfg.max_images_per_walker ∧
    (∀ i ∈ (save_walker_image cfg st wid ipath itype cam q now).images,
      i ∈ st.images ∨ i = ⟨st.next_image_id, wid, ipath, itype, now, cam, q⟩) ∧
    (∀ i ∈ (save_walker_image cfg st wid ipath itype cam q now).images,
      i.walker_id = wid →
      ∀ e ∈ st.images ++ [⟨st.next_image_id, wid, ipath, itype, now, cam, q⟩],
        e.walker_id = wid →
        e ∉ (save_walker_image cfg st wid ipath itype cam q now).images →
        imageRank i e) ∧
    (∀ e ∈ st.images ++ [⟨st.next_image_id, wid, ipath, itype, now, cam, q⟩],
      e.walker_id = wid →
      e ∉ (save_walker_image cfg st wid ipath itype cam q now).images →
      e.image_path ∉ (save_walker_image cfg st wid ipath itype cam q now).files) ∧
    (save_walker_image cfg st wid ipath itype cam q now).images.filter
        (fun i => decide (¬ i.walker_id = wid))
      = st.images.filter (fun i => decide (¬ i.walker_id = wid)) ∧
    (walkerImages wid (save_walker_image cfg st wid ipath itype cam q now).images).Perm
      ((rankedImages wid
          (st.images ++ [⟨st.next_image_id, wid, ipath, itype, now, cam, q⟩])).take
        cfg.max_images_per_walker) ∧
    (walkerImages wid (save_walker_image cfg st wid ipath itype cam q now).images).length
      = min cfg.max_images_per_walker
          (walkerImages wid
            (st.images ++ [⟨st.next_image_id, wid, ipath, itype, now, cam, q⟩])).length ∧
    ((walkerImages wid
          (st.images ++ [⟨st.next_image_id, wid, ipath, itype, now, cam, q⟩])).length
        ≤ cfg.max_images_per_walker →
      (save_walker_image cfg st wid ipath itype cam q now).images
          = st.images ++ [⟨st.next_image_id, wid, ipath, itype, now, cam, q⟩] ∧
      (save_walker_image cfg st wid ipath itype cam q now).files = st.files) := by
  have hnodup2 : (((st.images
      ++ [(⟨st.next_image_id, wid, ipath, itype, now, cam, q⟩ : WalkerImage)]).map
        (fun i => i.id))).Nodup := by
    rw [List.map_append, List.nodup_append]
    refine ⟨hnodup, List.nodup_singleton _, ?_⟩
    intro a ha hb
    simp only [List.map_cons, List.map_nil, List.mem_singleton] at hb
    obtain ⟨i, hi, rfl⟩ := List.mem_map.1 ha
    have := hfresh i hi
    simp only [hb] at this
    omega
  obtain ⟨hA, hB, hC, hD, hE, hF, hG⟩ := cleanup_spec wid cfg.max_images_per_walker
    { st with
      images := st.images ++ [(⟨st.next_image_id, wid, ipath, itype, now, cam, q⟩ : WalkerImage)],
      next_image_id := st.next_image_id + 1 } hnodup2
  have hrk : (rankedImages wid
        (st.images ++ [(⟨st.next_image_id, wid, ipath, itype, now, cam, q⟩ : WalkerImage)])).length
      = (walkerImages wid
          (st.images ++ [(⟨st.next_image_id, wid, ipath, itype, now, cam, q⟩ : WalkerImage)])).length :=
    List.length_insertionSort imageRank _
  refine ⟨hA, ?_, hC, hD, ?_, hF, ?_, ?_⟩
  · intro i hi
    rcases List.mem_append.1 (hB i hi) with h | h
    · exact Or.inl h
    · exact Or.inr (List.mem_singleton.1 h)
  · refine hE.trans ?_
    show (st.images ++ [(⟨st.next_image_id, wid, ipath, itype, now, cam, q⟩ : WalkerImage)]).filter (fun i => decide (¬ i.walker_id = wid))
      = st.images.filter (fun i => decide (¬ i.walker_id = wid))
    rw [List.filter_append]
    simp
  · have hclen : (walkerImages wid
          (save_walker_image cfg st wid ipath itype cam q now).images).length
        = ((rankedImages wid
            (st.images ++ [(⟨st.next_image_id, wid, ipath, itype, now, cam, q⟩ : WalkerImage)])).take
          cfg.max_images_per_walker).length :=
      hF.length_eq
    rw [hclen, List.length_take, hrk]
  · intro hle
    have hG2 := hG hle
    rw [show save_walker_image cfg st wid ipath itype cam q now
        = cleanupOldImages wid cfg.max_images_per_walker
            { st with
              images := st.images ++ [(⟨st.next_image_id, wid, ipath, itype, now, cam, q⟩ : WalkerImage)],
              next_image_id := st.next_image_id + 1 } from rfl, hG2]
    exact ⟨rfl, rfl⟩

theorem image_retention_witness :
    ((emptyState.images.map (fun i => i.id)).Nodup ∧
      ∀ i ∈ emptyState.images, i.id < emptyState.next_image_id) ∧
    (walkerImages 0
        (save_walker_image ⟨30, 2⟩ emptyState 0 "f.jpg" "person" "a" 1 0).images).length
      ≤ (⟨30, 2⟩ : Config).max_images_per_walker :=
  ⟨⟨by decide, by decide⟩,
   (image_retention ⟨30, 2⟩ emptyState 0 "f.jpg" "person" "a" 1 0
      (by decide) (by decide)).1⟩

end DogWalker
